import Mathlib

/-!
Shallow embedding of `src/smtp_proxy_server/server.py`: the SMTP-to-HTTP
mail forwarding proxy.  The Python stdlib pieces that the handler calls
(`email.message_from_string`, the encoded-word machinery behind
`email.header.decode_header` / `make_header`, and `email.utils.parseaddr`)
live outside this repository; they are abstracted as function parameters,
while everything the repository's own code does with their results is
embedded faithfully.
-/

namespace SmtpProxy

/-- The `aiosmtpd.smtp.LoginPassword` credential pair. Payloads are bytes
in Python; modelled as strings (the handler only ever calls `.decode()`
on the password). -/
structure LoginPassword where
  login : String
  password : String
deriving DecidableEq, Repr

/-- The `auth_data` argument handed to the authenticator by the engine:
either a `LoginPassword` instance or some other object (anything failing
the `isinstance(auth_data, LoginPassword)` test). -/
inductive AuthData where
  | loginPassword (lp : LoginPassword)
  | other
deriving DecidableEq, Repr

/-- The `aiosmtpd.smtp.AuthResult` record restricted to the fields the
server sets: `success`, `handled`, and the attached credential pair. In
aiosmtpd, `handled` defaults to `True` when not passed. -/
structure AuthResult where
  success : Bool
  handled : Bool
  auth_data : Option LoginPassword
deriving DecidableEq, Repr

/-- The local `fail_nothandled = AuthResult(success=False, handled=False)`
in `CustomSMTPHandler.authenticator`. -/
def fail_nothandled : AuthResult := ⟨false, false, none⟩

/-- Embeds `CustomSMTPHandler.authenticator`: mechanism must be LOGIN or PLAIN
and `auth_data` must be a `LoginPassword`; otherwise the not-handled
result is returned. -/
def authenticator (mechanism : String) (auth_data : AuthData) : AuthResult :=
  if mechanism ∉ (["LOGIN", "PLAIN"] : List String) then
    fail_nothandled
  else
    match auth_data with
    | .other => fail_nothandled
    | .loginPassword lp => ⟨true, true, some lp⟩

/-- A node of the parsed MIME tree (`email.message.Message`): a leaf part
with a content type and decoded payload (`get_payload(decode=True)`,
`none` when absent), or a multipart container with ordered children. -/
inductive MimePart where
  | leaf (contentType : String) (payload : Option String)
  | multipart (contentType : String) (children : List MimePart)

/-- Embeds `Message.get_content_type()`. -/
def MimePart.get_content_type : MimePart → String
  | .leaf ct _ => ct
  | .multipart ct _ => ct

/-- Embeds `Message.get_payload(decode=True)` (then `.decode()`): the decoded
payload of a leaf; `None` for a multipart container. -/
def MimePart.get_payload : MimePart → Option String
  | .leaf _ p => p
  | .multipart _ _ => none

/-- Embeds `Message.is_multipart()`. -/
def MimePart.is_multipart : MimePart → Bool
  | .leaf _ _ => false
  | .multipart _ _ => true

mutual

/-- Embeds `Message.walk()`: depth-first traversal yielding the node itself
followed by the full walk of each child in order. -/
def walk : MimePart → List MimePart
  | .leaf ct p => [.leaf ct p]
  | .multipart ct cs => .multipart ct cs :: walkList cs

/-- The concatenated walks of a list of sibling parts, in order. -/
def walkList : List MimePart → List MimePart
  | [] => []
  | p :: ps => walk p ++ walkList ps

end

/-- One entry of `content_list`: the dict
`{"type": content_type, "value": payload.decode()}`. -/
structure ContentItem where
  type : String
  value : String
deriving DecidableEq, Repr

/-- The body of the collection loop for one part: skip when the content
type is not `text/plain`/`text/html` or the payload is falsy (absent or
empty); otherwise produce the `{"type", "value"}` entry. -/
def eligible_item (part : MimePart) : Option ContentItem :=
  if part.get_content_type ∉ (["text/plain", "text/html"] : List String) then
    none
  else
    match part.get_payload with
    | none => none
    | some s => if s = "" then none else some ⟨part.get_content_type, s⟩

/-- Embeds the `content_list` built by `handle_DATA`: for a multipart message,
the eligible entries of every node of `msg.walk()` in traversal order;
for a non-multipart message, the message itself when eligible. -/
def content_list (msg : MimePart) : List ContentItem :=
  if msg.is_multipart then
    (walk msg).filterMap eligible_item
  else
    match eligible_item msg with
    | some c => [c]
    | none => []

/-- The sort key `lambda x: (x["type"] == "text/html", len(x["value"]))`. -/
def contentKey (x : ContentItem) : Bool × Nat :=
  (x.type == "text/html", x.value.length)

/-- Python's `<` on `(bool, int)` pairs: lexicographic with
`False < True`. -/
def keyLtb (a b : Bool × Nat) : Bool :=
  (!a.1 && b.1) || ((a.1 == b.1) && decide (a.2 < b.2))

/-- Python's `max(cur :: rest, key=contentKey)`: scan left to right,
replacing the current maximum only on a strictly greater key, so the
first occurrence of the maximal key wins. -/
def pyMax (cur : ContentItem) : List ContentItem → ContentItem
  | [] => cur
  | x :: xs => pyMax (if keyLtb (contentKey cur) (contentKey x) then x else cur) xs

/-- The structured view of `email.message_from_string(envelope.content)`:
the MIME tree plus the raw `From`, `To` and `Subject` header values
(`msg['From']` etc., `none` when the header is absent). -/
structure ParsedMsg where
  root : MimePart
  fromHeader : Option String
  toHeader : Option String
  subjectHeader : Option String

/-- Splitting a character list at every comma, keeping empty segments:
the semantics of Python's `str.split(",")` (so the empty string yields
one empty segment, and `","` yields two). -/
def splitCommaChars : List Char → List (List Char)
  | [] => [[]]
  | c :: rest =>
      match splitCommaChars rest with
      | [] => [[c]]
      | seg :: segs =>
          if c = ',' then [] :: seg :: segs else (c :: seg) :: segs

/-- Embeds `decodedTo.split(",")`. -/
def split_commas (s : String) : List String :=
  (splitCommaChars s.data).map (fun cs => ⟨cs⟩)

/-- Embeds `to_mail_map.get(key)` for the dict built by the loop
`for to in decodedTo.split(","): to_mail_map[parseaddr(to)[1]] = parseaddr(to)[0]`:
each assignment overwrites, so the lookup returns the display name of the
last comma-separated entry whose parsed address equals `key`. -/
def to_mail_map_get (parseaddr : String → String × String)
    (decodedTo : String) (key : String) : Option String :=
  ((split_commas decodedTo).map parseaddr).foldl
    (fun acc p => if p.2 = key then some p.1 else acc) none

/-- The `send_body` dict posted to `<proxy_url>/external/api/send_mail`. -/
structure ForwardRequest where
  token : String
  from_name : String
  to_name : Option String
  to_mail : String
  subject : String
  is_html : Bool
  content : String
deriving DecidableEq, Repr

/-- The outcome of `requests.post`: a response with a status code and
body text, or a raised exception carrying a message. -/
inductive BackendResult where
  | response (status_code : Nat) (text : String)
  | exn (e : String)
deriving DecidableEq, Repr

/-- The observable outcome of one `handle_DATA` run: the returned status
line (`Except.error` models an uncaught Python exception) together with
the list of backend POST requests performed during the run. -/
structure HandleResult where
  result : Except String String
  calls : List ForwardRequest

/-- The slice of `aiosmtpd.smtp.Session` that `handle_DATA` reads:
`session.auth_data`, which is a `LoginPassword` exactly when it is
`some`. -/
structure Session where
  auth_data : Option LoginPassword
deriving DecidableEq, Repr

/-- The slice of `aiosmtpd.smtp.Envelope` that `handle_DATA` reads. -/
structure Envelope where
  mail_from : String
  rcpt_tos : List String
  content : String
deriving DecidableEq, Repr

/-- Construction of the `send_body` dict from the decoded headers, the
session password, the sole recipient and the selected body part. -/
def build_send_body (parseaddr : String → String × String)
    (password decodedFrom decodedTo to_mail decodedSubject : String)
    (body : ContentItem) : ForwardRequest :=
  { token := password
    from_name := (parseaddr decodedFrom).1
    to_name := to_mail_map_get parseaddr decodedTo to_mail
    to_mail := to_mail
    subject := decodedSubject
    is_html := body.type == "text/html"
    content := body.value }

/-- The `try: requests.post(...) ...` block: status 200 maps to `250 OK`,
any other status to the detailed 500 line, and a raised exception to the
generic `500 Internal server error` (the exception text is only logged). -/
def forward_and_map (backend : ForwardRequest → BackendResult)
    (send_body : ForwardRequest) : HandleResult :=
  match backend send_body with
  | .response code text =>
      if code ≠ 200 then
        ⟨.ok ("500 Internal server error code=[" ++ toString code
              ++ "] text=[" ++ text ++ "]"), [send_body]⟩
      else
        ⟨.ok "250 OK", [send_body]⟩
  | .exn _ => ⟨.ok "500 Internal server error", [send_body]⟩

/-- Embeds `CustomSMTPHandler.handle_DATA`.  The stdlib collaborators are
parameters: `message_from_string` is the MIME parser, `decode` is
`str(make_header(decode_header(·)))` on a present header value, and
`parseaddr` is `email.utils.parseaddr`.  When a header is absent,
`msg[name]` is `None` and `email.header.decode_header(None)` raises
`TypeError`, which `handle_DATA` does not catch (only `requests.post`
sits inside the `try`), so the run ends in an exception. -/
def handle_DATA (message_from_string : String → ParsedMsg)
    (decode : String → String) (parseaddr : String → String × String)
    (backend : ForwardRequest → BackendResult)
    (session : Session) (envelope : Envelope) : HandleResult :=
  match session.auth_data with
  | none => ⟨.ok "530 Authentication required", []⟩
  | some lp =>
    match envelope.rcpt_tos with
    | [to_mail] =>
      let msg := message_from_string envelope.content
      match content_list msg.root with
      | [] => ⟨.ok "500 Invalid content", []⟩
      | c :: cs =>
        let body := pyMax c cs
        match msg.fromHeader with
        | none => ⟨.error "TypeError: decode_header(None)", []⟩
        | some fh =>
          match msg.toHeader with
          | none => ⟨.error "TypeError: decode_header(None)", []⟩
          | some th =>
            match msg.subjectHeader with
            | none => ⟨.error "TypeError: decode_header(None)", []⟩
            | some sh =>
              forward_and_map backend
                (build_send_body parseaddr lp.password (decode fh)
                  (decode th) to_mail (decode sh) body)
    | _ => ⟨.ok "500 Only one recipient allowed", []⟩

/-! Concrete stand-ins for the stdlib collaborators, used to instantiate
theorems on closed inputs. -/

/-- A parser fixture: a single text/plain leaf carrying the raw content,
with all three headers present. -/
def demoParse (s : String) : ParsedMsg :=
  ⟨.leaf "text/plain" (some s), some "A <a@x.com>", some "B <b@x.com>", some "Hello"⟩

/-- An address-parser fixture: empty display name, the entry itself as
the address. -/
def demoParseaddr (s : String) : String × String := ("", s)

/-- C6: the authenticator returns a successful result carrying the
credential pair iff the mechanism is LOGIN or PLAIN and the credential
data is a login/password pair; otherwise it returns the not-handled
result with success=false and handled=false. -/
theorem C6_authenticator_gate (mechanism : String) (auth_data : AuthData) :
    (∀ lp : LoginPassword,
      authenticator mechanism auth_data = ⟨true, true, some lp⟩ ↔
        ((mechanism = "LOGIN" ∨ mechanism = "PLAIN") ∧
          auth_data = .loginPassword lp)) ∧
    ((¬ (mechanism = "LOGIN" ∨ mechanism = "PLAIN") ∨ auth_data = .other) →
      authenticator mechanism auth_data = ⟨false, false, none⟩) := by
  have hmem : mechanism ∈ (["LOGIN", "PLAIN"] : List String) ↔
      (mechanism = "LOGIN" ∨ mechanism = "PLAIN") := by
    simp
  constructor
  · intro lp
    unfold authenticator fail_nothandled
    by_cases hm : mechanism ∈ (["LOGIN", "PLAIN"] : List String)
    · rw [if_neg (fun hc => hc hm)]
      cases auth_data with
      | loginPassword lp2 => simp [hmem.mp hm]
      | other => simp [hmem.mp hm]
    · rw [if_pos hm]
      simp only [hmem] at hm
      simp [hm]
  · intro h
    unfold authenticator fail_nothandled
    rcases h with h | h
    · rw [if_pos (fun hmm => h (hmem.mp hmm))]
    · subst h
      by_cases hm : mechanism ∈ (["LOGIN", "PLAIN"] : List String) <;> simp [hm]

/-- C6 witness: an unsupported mechanism with well-formed credentials is
not handled, and a malformed credential under PLAIN is not handled. -/
theorem C6_authenticator_gate_witness :
    authenticator "CRAM-MD5" (.loginPassword ⟨"u", "p"⟩) = ⟨false, false, none⟩ ∧
    authenticator "PLAIN" .other = ⟨false, false, none⟩ :=
  ⟨(C6_authenticator_gate "CRAM-MD5" (.loginPassword ⟨"u", "p"⟩)).2
      (Or.inl (by decide)),
   (C6_authenticator_gate "PLAIN" .other).2 (Or.inr rfl)⟩

/-- C1: the data handler checks preconditions in order: a session without
a login/password authentication result gets exactly
"530 Authentication required"; an authenticated session whose envelope
has a recipient count other than one gets exactly
"500 Only one recipient allowed". -/
theorem C1_precondition_order (message_from_string : String → ParsedMsg)
    (decode : String → String) (parseaddr : String → String × String)
    (backend : ForwardRequest → BackendResult)
    (session : Session) (envelope : Envelope) :
    (session.auth_data = none →
      (handle_DATA message_from_string decode parseaddr backend session
          envelope).result = .ok "530 Authentication required") ∧
    (∀ lp : LoginPassword, session.auth_data = some lp →
      envelope.rcpt_tos.length ≠ 1 →
      (handle_DATA message_from_string decode parseaddr backend session
          envelope).result = .ok "500 Only one recipient allowed") := by
  constructor
  · intro h
    simp [handle_DATA, h]
  · intro lp h hlen
    unfold handle_DATA
    rw [h]
    rcases henv : envelope.rcpt_tos with _ | ⟨a, _ | ⟨b, t⟩⟩
    · rfl
    · exact absurd (by rw [henv]; rfl) hlen
    · rfl

/-- C1 witness: a concrete unauthenticated run, and a concrete
authenticated run with two recipients. -/
theorem C1_precondition_order_witness :
    (handle_DATA demoParse id demoParseaddr (fun _ => .response 200 "") ⟨none⟩
        ⟨"s@x.com", ["r@x.com"], "hi"⟩).result
      = .ok "530 Authentication required" ∧
    (handle_DATA demoParse id demoParseaddr (fun _ => .response 200 "")
        ⟨some ⟨"u", "p"⟩⟩ ⟨"s@x.com", ["r1@x.com", "r2@x.com"], "hi"⟩).result
      = .ok "500 Only one recipient allowed" :=
  ⟨(C1_precondition_order demoParse id demoParseaddr _ _ _).1 rfl,
   (C1_precondition_order demoParse id demoParseaddr _ _ _).2 ⟨"u", "p"⟩ rfl
     (by decide)⟩

/-! Order lemmas for the Python tuple comparison on (bool, int) keys. -/

/-- Unfolds the pair order into its two clauses. -/
lemma keyLtb_iff (a b : Bool × Nat) :
    keyLtb a b = true ↔
      (a.1 = false ∧ b.1 = true) ∨ (a.1 = b.1 ∧ a.2 < b.2) := by
  rcases a with ⟨a1, a2⟩
  rcases b with ⟨b1, b2⟩
  cases a1 <;> cases b1 <;> simp [keyLtb]

/-- The pair order is irreflexive. -/
lemma keyLtb_irrefl (a : Bool × Nat) : keyLtb a a = false := by
  rcases a with ⟨a1, a2⟩
  cases a1 <;> simp [keyLtb]

/-- The pair order is transitive. -/
lemma keyLtb_trans {a b c : Bool × Nat} (h1 : keyLtb a b = true)
    (h2 : keyLtb b c = true) : keyLtb a c = true := by
  rcases a with ⟨a1, a2⟩
  rcases b with ⟨b1, b2⟩
  rcases c with ⟨c1, c2⟩
  cases a1 <;> cases b1 <;> cases c1 <;> simp [keyLtb] at * <;> omega

/-- The pair order is total: a non-smaller pair is greater or equal. -/
lemma keyLtb_total {a b : Bool × Nat} (h : keyLtb a b = false) :
    keyLtb b a = true ∨ a = b := by
  rcases a with ⟨a1, a2⟩
  rcases b with ⟨b1, b2⟩
  cases a1 <;> cases b1 <;> simp [keyLtb] at * <;> omega

/-- Transitivity of the reflexive closure, phrased on the strict order:
if a is not below b and b is not below c then a is not below c. -/
lemma keyLtb_le_trans {a b c : Bool × Nat} (h1 : keyLtb b a = false)
    (h2 : keyLtb c b = false) : keyLtb c a = false := by
  rcases a with ⟨a1, a2⟩
  rcases b with ⟨b1, b2⟩
  rcases c with ⟨c1, c2⟩
  cases a1 <;> cases b1 <;> cases c1 <;> simp [keyLtb] at * <;> omega

/-- Specification of Python max-with-key over `cur :: rest`: the scanned
list splits around the result, no element has a strictly greater key, and
every element strictly before the result has a strictly smaller key. -/
lemma pyMax_spec (rest : List ContentItem) (cur : ContentItem) :
    ∃ l1 l2, cur :: rest = l1 ++ pyMax cur rest :: l2 ∧
      (∀ x ∈ cur :: rest,
        keyLtb (contentKey (pyMax cur rest)) (contentKey x) = false) ∧
      (∀ x ∈ l1, keyLtb (contentKey x) (contentKey (pyMax cur rest)) = true) := by
  induction rest generalizing cur with
  | nil =>
      refine ⟨[], [], rfl, ?_, by simp⟩
      intro x hx
      rw [List.mem_singleton] at hx
      subst hx
      exact keyLtb_irrefl _
  | cons x xs ih =>
      by_cases h : keyLtb (contentKey cur) (contentKey x) = true
      · have hred : pyMax cur (x :: xs) = pyMax x xs := by
          simp [pyMax, h]
        obtain ⟨l1, l2, hsplit, hmax, hbefore⟩ := ih x
        rw [hred]
        refine ⟨cur :: l1, l2, ?_, ?_, ?_⟩
        · rw [List.cons_append, ← hsplit]
        · intro y hy
          rcases List.mem_cons.mp hy with rfl | hy2
          · cases hb : keyLtb (contentKey (pyMax x xs)) (contentKey y) with
            | false => rfl
            | true =>
                have hx1 := hmax x (List.mem_cons_self x xs)
                have hx2 : keyLtb (contentKey (pyMax x xs)) (contentKey x)
                    = true := keyLtb_trans hb h
                rw [hx2] at hx1
                simp at hx1
          · exact hmax y hy2
        · intro y hy
          rcases List.mem_cons.mp hy with rfl | hy2
          · cases l1 with
            | nil =>
                have hx : x = pyMax x xs := by
                  simpa using congrArg (fun l => l.head?) hsplit
                rw [← hx]
                exact h
            | cons z t1 =>
                have hxz : x = z := by
                  simpa using congrArg (fun l => l.head?) hsplit
                have hmem : x ∈ z :: t1 := by
                  rw [hxz]
                  exact List.mem_cons_self z t1
                exact keyLtb_trans h (hbefore x hmem)
          · exact hbefore y hy2
      · have hb : keyLtb (contentKey cur) (contentKey x) = false :=
          Bool.eq_false_iff.mpr h
        have hred : pyMax cur (x :: xs) = pyMax cur xs := by
          simp [pyMax, hb]
        obtain ⟨l1, l2, hsplit, hmax, hbefore⟩ := ih cur
        rw [hred]
        have hmaxx : keyLtb (contentKey (pyMax cur xs)) (contentKey x) = false :=
          keyLtb_le_trans hb (hmax cur (List.mem_cons_self cur xs))
        cases l1 with
        | nil =>
            have hc : cur = pyMax cur xs := by
              simpa using congrArg (fun l => l.head?) hsplit
            refine ⟨[], x :: xs, by rw [List.nil_append, ← hc], ?_, by simp⟩
            intro y hy
            rcases List.mem_cons.mp hy with rfl | hy2
            · exact hmax y (List.mem_cons_self _ _)
            · rcases List.mem_cons.mp hy2 with rfl | hy3
              · exact hmaxx
              · exact hmax y (List.mem_cons_of_mem _ hy3)
        | cons z t1 =>
            have hcz : cur = z := by
              simpa using congrArg (fun l => l.head?) hsplit
            have hxs : xs = t1 ++ pyMax cur xs :: l2 := by
              simpa using congrArg (fun l => l.tail) hsplit
            have hcur_sel : keyLtb (contentKey cur) (contentKey (pyMax cur xs))
                = true := by
              apply hbefore
              rw [← hcz]
              exact List.mem_cons_self cur t1
            refine ⟨cur :: x :: t1, l2, ?_, ?_, ?_⟩
            · rw [List.cons_append, List.cons_append, ← hxs]
            · intro y hy
              rcases List.mem_cons.mp hy with rfl | hy2
              · exact hmax y (List.mem_cons_self _ _)
              · rcases List.mem_cons.mp hy2 with rfl | hy3
                · exact hmaxx
                · exact hmax y (List.mem_cons_of_mem _ hy3)
            · intro y hy
              rcases List.mem_cons.mp hy with rfl | hy2
              · exact hcur_sel
              · rcases List.mem_cons.mp hy2 with rfl | hy3
                · rcases keyLtb_total hb with hlt | heq
                  · exact keyLtb_trans hlt hcur_sel
                  · rw [← heq]
                    exact hcur_sel
                · exact hbefore y (List.mem_cons_of_mem z hy3)

/-- C2: for every non-empty candidate list (in traversal order), the
selector picks a member of the list; every text/html candidate outranks
every text/plain one, so if any candidate is text/html the chosen one is;
among candidates on the same side of the text/html test the chosen one
has maximal decoded length; and the chosen candidate is the first in
traversal order among those with its exact (is_html, length) key. -/
theorem C2_selection_rule (c : ContentItem) (cs : List ContentItem) :
    pyMax c cs ∈ c :: cs ∧
    (∀ x ∈ c :: cs, x.type = "text/html" → (pyMax c cs).type = "text/html") ∧
    (∀ x ∈ c :: cs, (x.type = "text/html" ↔ (pyMax c cs).type = "text/html") →
      x.value.length ≤ (pyMax c cs).value.length) ∧
    (∃ l1 l2, c :: cs = l1 ++ pyMax c cs :: l2 ∧
      ∀ x ∈ l1, contentKey x ≠ contentKey (pyMax c cs)) := by
  obtain ⟨l1, l2, hsplit, hmax, hbefore⟩ := pyMax_spec cs c
  refine ⟨?_, ?_, ?_, l1, l2, hsplit, ?_⟩
  · rw [hsplit]
    exact List.mem_append_right l1 (List.mem_cons_self _ _)
  · intro x hx hxhtml
    by_contra hsel
    have hkey : keyLtb (contentKey (pyMax c cs)) (contentKey x) = true := by
      rw [keyLtb_iff]
      left
      constructor
      · simp [contentKey, hsel]
      · simp [contentKey, hxhtml]
    have hm := hmax x hx
    rw [hkey] at hm
    simp at hm
  · intro x hx hiff
    by_contra hlen
    push_neg at hlen
    have hb : (x.type == "text/html") = ((pyMax c cs).type == "text/html") := by
      by_cases hx1 : x.type = "text/html"
      · simp [hx1, hiff.mp hx1]
      · have hs1 : ¬ (pyMax c cs).type = "text/html" := fun hc => hx1 (hiff.mpr hc)
        simp [hx1, hs1]
    have hkey : keyLtb (contentKey (pyMax c cs)) (contentKey x) = true := by
      rw [keyLtb_iff]
      right
      exact ⟨by simp [contentKey, hb], hlen⟩
    have hm := hmax x hx
    rw [hkey] at hm
    simp at hm
  · intro x hx heq
    have hbx := hbefore x hx
    rw [heq, keyLtb_irrefl] at hbx
    simp at hbx

/-- C2 witness: with a text/plain candidate of length 5 listed first and
a text/html candidate of length 2 second, the selector picks the html
one (type dominates length). -/
theorem C2_selection_rule_witness :
    (pyMax ⟨"text/plain", "aaaaa"⟩ [⟨"text/html", "hi"⟩]).type = "text/html" :=
  (C2_selection_rule ⟨"text/plain", "aaaaa"⟩ [⟨"text/html", "hi"⟩]).2.1
    ⟨"text/html", "hi"⟩ (by decide) rfl

/-- A left fold of overwriting assignments reads back as the last
matching entry, that is the first match of the reversed list. -/
lemma foldl_overwrite_eq_find_last (key : String)
    (es : List (String × String)) (acc : Option String) :
    es.foldl (fun a p => if p.2 = key then some p.1 else a) acc
      = match es.reverse.find? (fun p => p.2 == key) with
        | some p => some p.1
        | none => acc := by
  induction es using List.reverseRecOn generalizing acc with
  | nil => rfl
  | append_singleton ps p ih =>
      rw [List.foldl_append, List.reverse_append]
      simp only [List.foldl_cons, List.foldl_nil, List.reverse_singleton,
        List.singleton_append]
      by_cases hp : p.2 = key
      · rw [if_pos hp, List.find?_cons_of_pos _ (by simp [hp])]
      · rw [if_neg hp, List.find?_cons_of_neg _ (by simp [hp])]
        exact ih acc

/-- C7: the To-mapping lookup is last-write-wins: for every decoded To
header value, the handler splits it on commas, parses each entry, and the
mapping's value at an address is the display name of the last entry that
parses to that address (no error on duplicates, earlier names are
overwritten). -/
theorem C7_to_map_last_write_wins (parseaddr : String → String × String)
    (decodedTo key : String) :
    to_mail_map_get parseaddr decodedTo key
      = (((split_commas decodedTo).map parseaddr).reverse.find?
          (fun p => p.2 == key)).map Prod.fst := by
  unfold to_mail_map_get
  rw [foldl_overwrite_eq_find_last]
  cases ((split_commas decodedTo).map parseaddr).reverse.find?
      (fun p => p.2 == key) with
  | none => rfl
  | some p => rfl

/-- An address-parser fixture distinguishing the two entries of the
duplicate-address example. -/
def dupParseaddr (s : String) : String × String :=
  if s = "A1 <a@x.com>" then ("A1", "a@x.com")
  else if s = " A2 <a@x.com>" then ("A2", "a@x.com")
  else ("", s)

/-- C7 witness: a To header listing a@x.com twice with different display
names resolves to the display name of the second occurrence. -/
theorem C7_to_map_last_write_wins_witness :
    to_mail_map_get dupParseaddr "A1 <a@x.com>, A2 <a@x.com>" "a@x.com"
      = some "A2" := by
  rw [C7_to_map_last_write_wins]
  decide

/-- Under a login/password session, a single recipient, a non-empty
content list and all three headers present, `handle_DATA` reduces to the
forwarding step applied to the built request. -/
lemma handle_DATA_eq_forward (message_from_string : String → ParsedMsg)
    (decode : String → String) (parseaddr : String → String × String)
    (backend : ForwardRequest → BackendResult)
    (session : Session) (envelope : Envelope) (lp : LoginPassword)
    (r : String) (c : ContentItem) (cs : List ContentItem)
    (fh th sh : String)
    (hauth : session.auth_data = some lp)
    (hrcpt : envelope.rcpt_tos = [r])
    (hcl : content_list (message_from_string envelope.content).root = c :: cs)
    (hfrom : (message_from_string envelope.content).fromHeader = some fh)
    (hto : (message_from_string envelope.content).toHeader = some th)
    (hsubj : (message_from_string envelope.content).subjectHeader = some sh) :
    handle_DATA message_from_string decode parseaddr backend session envelope
      = forward_and_map backend
          (build_send_body parseaddr lp.password (decode fh) (decode th) r
            (decode sh) (pyMax c cs)) := by
  unfold handle_DATA
  simp only [hauth, hrcpt, hcl, hfrom, hto, hsubj]

/-- C3: with all preconditions met, the backend outcome maps to the
protocol line: status 200 yields exactly "250 OK"; status N with body B
yields exactly the detailed 500 line carrying N and B; a raised
transport-level exception yields exactly "500 Internal server error". -/
theorem C3_backend_outcome_mapping (message_from_string : String → ParsedMsg)
    (decode : String → String) (parseaddr : String → String × String)
    (backend : ForwardRequest → BackendResult)
    (session : Session) (envelope : Envelope) (lp : LoginPassword)
    (r : String) (c : ContentItem) (cs : List ContentItem)
    (fh th sh : String)
    (hauth : session.auth_data = some lp)
    (hrcpt : envelope.rcpt_tos = [r])
    (hcl : content_list (message_from_string envelope.content).root = c :: cs)
    (hfrom : (message_from_string envelope.content).fromHeader = some fh)
    (hto : (message_from_string envelope.content).toHeader = some th)
    (hsubj : (message_from_string envelope.content).subjectHeader = some sh)
    (req : ForwardRequest)
    (hreq : req = build_send_body parseaddr lp.password (decode fh)
      (decode th) r (decode sh) (pyMax c cs)) :
    (∀ b, backend req = .response 200 b →
      (handle_DATA message_from_string decode parseaddr backend session
        envelope).result = .ok "250 OK") ∧
    (∀ n b, n ≠ 200 → backend req = .response n b →
      (handle_DATA message_from_string decode parseaddr backend session
        envelope).result = .ok ("500 Internal server error code=["
          ++ toString n ++ "] text=[" ++ b ++ "]")) ∧
    (∀ e, backend req = .exn e →
      (handle_DATA message_from_string decode parseaddr backend session
        envelope).result = .ok "500 Internal server error") := by
  subst hreq
  rw [handle_DATA_eq_forward message_from_string decode parseaddr backend
    session envelope lp r c cs fh th sh hauth hrcpt hcl hfrom hto hsubj]
  unfold forward_and_map
  refine ⟨?_, ?_, ?_⟩
  · intro b hb
    rw [hb]
    simp
  · intro n b hn hb
    rw [hb]
    simp [hn]
  · intro e hb
    rw [hb]

/-- C3 witness: a concrete run whose backend answers 404 with body
"not found" returns the detailed 500 line. -/
theorem C3_backend_outcome_mapping_witness :
    (handle_DATA demoParse id demoParseaddr (fun _ => .response 404 "not found")
        ⟨some ⟨"u", "p"⟩⟩ ⟨"s@x.com", ["r@x.com"], "hi"⟩).result
      = .ok "500 Internal server error code=[404] text=[not found]" := by
  have h := (C3_backend_outcome_mapping demoParse id demoParseaddr
    (fun _ => .response 404 "not found") ⟨some ⟨"u", "p"⟩⟩
    ⟨"s@x.com", ["r@x.com"], "hi"⟩ ⟨"u", "p"⟩ "r@x.com"
    ⟨"text/plain", "hi"⟩ [] "A <a@x.com>" "B <b@x.com>" "Hello"
    rfl rfl (by decide) rfl rfl rfl _ rfl).2.1 404 "not found" (by decide) rfl
  rw [h]
  rfl

/-- A left fold of overwriting assignments leaves the accumulator
untouched when no entry matches the key. -/
lemma foldl_overwrite_no_match (key : String)
    (es : List (String × String)) (acc : Option String)
    (h : ∀ p ∈ es, p.2 ≠ key) :
    es.foldl (fun a p => if p.2 = key then some p.1 else a) acc = acc := by
  induction es generalizing acc with
  | nil => rfl
  | cons p ps ih =>
      rw [List.foldl_cons, if_neg (h p (List.mem_cons_self _ _))]
      exact ih acc (fun q hq => h q (List.mem_cons_of_mem _ hq))

/-- C5: with all preconditions met, the outbound request is built with:
token = the session password, from_name = the display name parsed from
the decoded From header, to_name = the To-mapping value at the sole
recipient (none when no To entry parses to it), to_mail = the sole
recipient, subject = the decoded Subject header, is_html true exactly
when the selected part's type is text/html, and content = the selected
part's decoded text. -/
theorem C5_forward_request_fields (message_from_string : String → ParsedMsg)
    (decode : String → String) (parseaddr : String → String × String)
    (backend : ForwardRequest → BackendResult)
    (session : Session) (envelope : Envelope) (lp : LoginPassword)
    (r : String) (c : ContentItem) (cs : List ContentItem)
    (fh th sh : String)
    (hauth : session.auth_data = some lp)
    (hrcpt : envelope.rcpt_tos = [r])
    (hcl : content_list (message_from_string envelope.content).root = c :: cs)
    (hfrom : (message_from_string envelope.content).fromHeader = some fh)
    (hto : (message_from_string envelope.content).toHeader = some th)
    (hsubj : (message_from_string envelope.content).subjectHeader = some sh) :
    ∃ req : ForwardRequest,
      (handle_DATA message_from_string decode parseaddr backend session
        envelope).calls = [req] ∧
      req.token = lp.password ∧
      req.from_name = (parseaddr (decode fh)).1 ∧
      req.to_name = to_mail_map_get parseaddr (decode th) r ∧
      ((∀ p ∈ (split_commas (decode th)).map parseaddr, p.2 ≠ r) →
        req.to_name = none) ∧
      req.to_mail = r ∧
      req.subject = decode sh ∧
      (req.is_html = true ↔ (pyMax c cs).type = "text/html") ∧
      req.content = (pyMax c cs).value := by
  rw [handle_DATA_eq_forward message_from_string decode parseaddr backend
    session envelope lp r c cs fh th sh hauth hrcpt hcl hfrom hto hsubj]
  refine ⟨build_send_body parseaddr lp.password (decode fh) (decode th) r
    (decode sh) (pyMax c cs), ?_, rfl, rfl, rfl, ?_, rfl, rfl, ?_, rfl⟩
  · unfold forward_and_map
    cases backend (build_send_body parseaddr lp.password (decode fh)
        (decode th) r (decode sh) (pyMax c cs)) with
    | response code text =>
        by_cases h200 : code ≠ 200
        · simp [h200]
        · simp [h200]
    | exn e => rfl
  · intro habs
    show to_mail_map_get parseaddr (decode th) r = none
    unfold to_mail_map_get
    exact foldl_overwrite_no_match r _ none habs
  · show ((pyMax c cs).type == "text/html") = true ↔ _
    simp

/-- C5 witness: a concrete authenticated single-recipient run builds
exactly one outbound request with the expected field values. -/
theorem C5_forward_request_fields_witness :
    ∃ req : ForwardRequest,
      (handle_DATA demoParse id demoParseaddr (fun _ => .response 200 "")
        ⟨some ⟨"u", "p"⟩⟩ ⟨"s@x.com", ["r@x.com"], "hi"⟩).calls = [req] ∧
      req.token = "p" ∧ req.from_name = "" ∧ req.to_name = none ∧
      req.to_mail = "r@x.com" ∧ req.subject = "Hello" ∧
      req.is_html = false ∧ req.content = "hi" := by
  obtain ⟨req, hcalls, htok, hfr, hton, _, hmail, hsub, hhtml, hcont⟩ :=
    C5_forward_request_fields demoParse id demoParseaddr
      (fun _ => .response 200 "") ⟨some ⟨"u", "p"⟩⟩
      ⟨"s@x.com", ["r@x.com"], "hi"⟩ ⟨"u", "p"⟩ "r@x.com"
      ⟨"text/plain", "hi"⟩ [] "A <a@x.com>" "B <b@x.com>" "Hello"
      rfl rfl (by decide) rfl rfl rfl
  refine ⟨req, hcalls, htok, hfr, ?_, hmail, hsub, ?_, hcont⟩
  · rw [hton]
    decide
  · cases hbool : req.is_html
    · rfl
    · exact absurd (hhtml.mp hbool) (by decide)

/-- C8: two full runs that both end in a transport-level error, with
different underlying exception texts, return the same status line —
exactly "500 Internal server error" — so no exception text reaches the
protocol peer. -/
theorem C8_transport_error_no_leak (mfs1 : String → ParsedMsg)
    (decode1 : String → String) (parseaddr1 : String → String × String)
    (backend1 : ForwardRequest → BackendResult)
    (session1 : Session) (envelope1 : Envelope) (lp1 : LoginPassword)
    (r1 : String) (c1 : ContentItem) (cs1 : List ContentItem)
    (fh1 th1 sh1 : String)
    (mfs2 : String → ParsedMsg) (decode2 : String → String)
    (parseaddr2 : String → String × String)
    (backend2 : ForwardRequest → BackendResult)
    (session2 : Session) (envelope2 : Envelope) (lp2 : LoginPassword)
    (r2 : String) (c2 : ContentItem) (cs2 : List ContentItem)
    (fh2 th2 sh2 : String) (e1 e2 : String)
    (_hne : e1 ≠ e2)
    (hauth1 : session1.auth_data = some lp1)
    (hrcpt1 : envelope1.rcpt_tos = [r1])
    (hcl1 : content_list (mfs1 envelope1.content).root = c1 :: cs1)
    (hfrom1 : (mfs1 envelope1.content).fromHeader = some fh1)
    (hto1 : (mfs1 envelope1.content).toHeader = some th1)
    (hsubj1 : (mfs1 envelope1.content).subjectHeader = some sh1)
    (hb1 : backend1 (build_send_body parseaddr1 lp1.password (decode1 fh1)
      (decode1 th1) r1 (decode1 sh1) (pyMax c1 cs1)) = .exn e1)
    (hauth2 : session2.auth_data = some lp2)
    (hrcpt2 : envelope2.rcpt_tos = [r2])
    (hcl2 : content_list (mfs2 envelope2.content).root = c2 :: cs2)
    (hfrom2 : (mfs2 envelope2.content).fromHeader = some fh2)
    (hto2 : (mfs2 envelope2.content).toHeader = some th2)
    (hsubj2 : (mfs2 envelope2.content).subjectHeader = some sh2)
    (hb2 : backend2 (build_send_body parseaddr2 lp2.password (decode2 fh2)
      (decode2 th2) r2 (decode2 sh2) (pyMax c2 cs2)) = .exn e2) :
    (handle_DATA mfs1 decode1 parseaddr1 backend1 session1 envelope1).result
      = .ok "500 Internal server error" ∧
    (handle_DATA mfs2 decode2 parseaddr2 backend2 session2 envelope2).result
      = (handle_DATA mfs1 decode1 parseaddr1 backend1 session1
          envelope1).result := by
  have h1 : (handle_DATA mfs1 decode1 parseaddr1 backend1 session1
      envelope1).result = .ok "500 Internal server error" := by
    rw [handle_DATA_eq_forward mfs1 decode1 parseaddr1 backend1 session1
      envelope1 lp1 r1 c1 cs1 fh1 th1 sh1 hauth1 hrcpt1 hcl1 hfrom1 hto1
      hsubj1]
    unfold forward_and_map
    rw [hb1]
  have h2 : (handle_DATA mfs2 decode2 parseaddr2 backend2 session2
      envelope2).result = .ok "500 Internal server error" := by
    rw [handle_DATA_eq_forward mfs2 decode2 parseaddr2 backend2 session2
      envelope2 lp2 r2 c2 cs2 fh2 th2 sh2 hauth2 hrcpt2 hcl2 hfrom2 hto2
      hsubj2]
    unfold forward_and_map
    rw [hb2]
  exact ⟨h1, h2.trans h1.symm⟩

/-- C8 witness: two concrete runs raising different exceptions both
return the generic internal error line. -/
theorem C8_transport_error_no_leak_witness :
    (handle_DATA demoParse id demoParseaddr (fun _ => .exn "timeout")
        ⟨some ⟨"u", "p"⟩⟩ ⟨"s@x.com", ["r@x.com"], "hi"⟩).result
      = .ok "500 Internal server error" ∧
    (handle_DATA demoParse id demoParseaddr (fun _ => .exn "conn refused")
        ⟨some ⟨"u", "p"⟩⟩ ⟨"s@x.com", ["r@x.com"], "hi"⟩).result
      = (handle_DATA demoParse id demoParseaddr (fun _ => .exn "timeout")
          ⟨some ⟨"u", "p"⟩⟩ ⟨"s@x.com", ["r@x.com"], "hi"⟩).result :=
  C8_transport_error_no_leak demoParse id demoParseaddr
    (fun _ => .exn "timeout") ⟨some ⟨"u", "p"⟩⟩
    ⟨"s@x.com", ["r@x.com"], "hi"⟩ ⟨"u", "p"⟩ "r@x.com"
    ⟨"text/plain", "hi"⟩ [] "A <a@x.com>" "B <b@x.com>" "Hello"
    demoParse id demoParseaddr (fun _ => .exn "conn refused")
    ⟨some ⟨"u", "p"⟩⟩ ⟨"s@x.com", ["r@x.com"], "hi"⟩ ⟨"u", "p"⟩ "r@x.com"
    ⟨"text/plain", "hi"⟩ [] "A <a@x.com>" "B <b@x.com>" "Hello"
    "timeout" "conn refused" (by decide) rfl rfl (by decide) rfl rfl rfl
    rfl rfl rfl (by decide) rfl rfl rfl rfl

/-- C9: with authentication, a single recipient and a non-empty candidate
set, a missing From, To or Subject header makes the handler apply header
decoding to None: the run ends in a raised exception, not in any of the
six protocol status lines, and no backend call is made. -/
theorem C9_missing_header_raises (message_from_string : String → ParsedMsg)
    (decode : String → String) (parseaddr : String → String × String)
    (backend : ForwardRequest → BackendResult)
    (session : Session) (envelope : Envelope) (lp : LoginPassword)
    (r : String) (c : ContentItem) (cs : List ContentItem)
    (hauth : session.auth_data = some lp)
    (hrcpt : envelope.rcpt_tos = [r])
    (hcl : content_list (message_from_string envelope.content).root = c :: cs)
    (hmiss : (message_from_string envelope.content).fromHeader = none ∨
      (message_from_string envelope.content).toHeader = none ∨
      (message_from_string envelope.content).subjectHeader = none) :
    (handle_DATA message_from_string decode parseaddr backend session
        envelope).result = .error "TypeError: decode_header(None)" ∧
    (handle_DATA message_from_string decode parseaddr backend session
        envelope).calls = [] := by
  unfold handle_DATA
  simp only [hauth, hrcpt, hcl]
  rcases hmiss with hm | hm | hm
  · simp [hm]
  · cases hf : (message_from_string envelope.content).fromHeader with
    | none => simp [hf]
    | some fh => simp [hf, hm]
  · cases hf : (message_from_string envelope.content).fromHeader with
    | none => simp [hf]
    | some fh =>
        cases ht : (message_from_string envelope.content).toHeader with
        | none => simp [hf, ht]
        | some th => simp [hf, ht, hm]

/-- A parser fixture missing the Subject header. -/
def noSubjectParse (s : String) : ParsedMsg :=
  ⟨.leaf "text/plain" (some s), some "A <a@x.com>", some "B <b@x.com>", none⟩

/-- C9 witness: a concrete run whose message has no Subject header ends
in the TypeError and performs no backend call. -/
theorem C9_missing_header_raises_witness :
    (handle_DATA noSubjectParse id demoParseaddr (fun _ => .response 200 "")
        ⟨some ⟨"u", "p"⟩⟩ ⟨"s@x.com", ["r@x.com"], "hi"⟩).result
      = .error "TypeError: decode_header(None)" ∧
    (handle_DATA noSubjectParse id demoParseaddr (fun _ => .response 200 "")
        ⟨some ⟨"u", "p"⟩⟩ ⟨"s@x.com", ["r@x.com"], "hi"⟩).calls = [] :=
  C9_missing_header_raises noSubjectParse id demoParseaddr
    (fun _ => .response 200 "") ⟨some ⟨"u", "p"⟩⟩
    ⟨"s@x.com", ["r@x.com"], "hi"⟩ ⟨"u", "p"⟩ "r@x.com"
    ⟨"text/plain", "hi"⟩ [] rfl rfl (by decide) (Or.inr (Or.inr rfl))

/-- Characterization of the skip/collect step for one MIME part. -/
lemma eligible_item_eq_some (part : MimePart) (x : ContentItem) :
    eligible_item part = some x ↔
      ((part.get_content_type = "text/plain" ∨
          part.get_content_type = "text/html") ∧
        ∃ s, part.get_payload = some s ∧ s ≠ "" ∧
          x = ⟨part.get_content_type, s⟩) := by
  unfold eligible_item
  by_cases hct : part.get_content_type ∈ (["text/plain", "text/html"] : List String)
  · have hor : part.get_content_type = "text/plain" ∨
        part.get_content_type = "text/html" := by simpa using hct
    rw [if_neg (fun hc => hc hct)]
    cases hp : part.get_payload with
    | none => simp [hor]
    | some s =>
        by_cases hs : s = ""
        · subst hs
          simp [hor]
        · simp [hor, hs, eq_comm]
          intro _
          exact hor.imp Eq.symm Eq.symm
  · have hor : ¬ (part.get_content_type = "text/plain" ∨
        part.get_content_type = "text/html") := by simpa using hct
    rw [if_pos hct]
    simp [hor]

/-- C4: the candidate set is exactly as described: for a multipart
message, the parts of the depth-first walk whose content type is exactly
text/plain or text/html and whose decoded payload is non-empty; for a
non-multipart message, the message itself under the same test; and with
the earlier preconditions met, an empty candidate set returns exactly
"500 Invalid content". -/
theorem C4_candidate_set (message_from_string : String → ParsedMsg)
    (decode : String → String) (parseaddr : String → String × String)
    (backend : ForwardRequest → BackendResult)
    (session : Session) (envelope : Envelope) (lp : LoginPassword)
    (r : String)
    (hauth : session.auth_data = some lp)
    (hrcpt : envelope.rcpt_tos = [r]) :
    (∀ msg : MimePart, msg.is_multipart = true → ∀ x : ContentItem,
      (x ∈ content_list msg ↔ ∃ part ∈ walk msg,
        (part.get_content_type = "text/plain" ∨
          part.get_content_type = "text/html") ∧
        ∃ s, part.get_payload = some s ∧ s ≠ "" ∧
          x = ⟨part.get_content_type, s⟩)) ∧
    (∀ msg : MimePart, msg.is_multipart = false → ∀ x : ContentItem,
      (x ∈ content_list msg ↔
        ((msg.get_content_type = "text/plain" ∨
            msg.get_content_type = "text/html") ∧
          ∃ s, msg.get_payload = some s ∧ s ≠ "" ∧
            x = ⟨msg.get_content_type, s⟩))) ∧
    (content_list (message_from_string envelope.content).root = [] →
      (handle_DATA message_from_string decode parseaddr backend session
        envelope).result = .ok "500 Invalid content") := by
  refine ⟨?_, ?_, ?_⟩
  · intro msg hmulti x
    unfold content_list
    rw [hmulti]
    simp only [if_pos]
    rw [List.mem_filterMap]
    constructor
    · rintro ⟨part, hpart, helig⟩
      exact ⟨part, hpart, (eligible_item_eq_some part x).mp helig⟩
    · rintro ⟨part, hpart, hcond⟩
      exact ⟨part, hpart, (eligible_item_eq_some part x).mpr hcond⟩
  · intro msg hmulti x
    unfold content_list
    rw [hmulti]
    simp only [Bool.false_eq_true, if_false]
    rw [← eligible_item_eq_some]
    cases he : eligible_item msg with
    | none => simp [he]
    | some y => simp [he, eq_comm]
  · intro hcl
    unfold handle_DATA
    simp only [hauth, hrcpt, hcl]

/-- A parser fixture whose sole part is application/octet-stream. -/
def octetParse (s : String) : ParsedMsg :=
  ⟨.multipart "multipart/mixed" [.leaf "application/octet-stream" (some s)],
    some "A <a@x.com>", some "B <b@x.com>", some "Hello"⟩

/-- C4 witness: a concrete message with only an application/octet-stream
part returns exactly the invalid-content line. -/
theorem C4_candidate_set_witness :
    (handle_DATA octetParse id demoParseaddr (fun _ => .response 200 "")
        ⟨some ⟨"u", "p"⟩⟩ ⟨"s@x.com", ["r@x.com"], "data"⟩).result
      = .ok "500 Invalid content" :=
  (C4_candidate_set octetParse id demoParseaddr (fun _ => .response 200 "")
    ⟨some ⟨"u", "p"⟩⟩ ⟨"s@x.com", ["r@x.com"], "data"⟩ ⟨"u", "p"⟩ "r@x.com"
    rfl rfl).2.2 (by decide)

/-- C10: the backend POST happens only after the authentication check,
the recipient-count check and content eligibility all pass: any failing
check yields a run with no backend call, and a run that performed a call
passed all three checks. -/
theorem C10_no_call_before_checks (message_from_string : String → ParsedMsg)
    (decode : String → String) (parseaddr : String → String × String)
    (backend : ForwardRequest → BackendResult)
    (session : Session) (envelope : Envelope) :
    ((session.auth_data = none ∨ envelope.rcpt_tos.length ≠ 1 ∨
        content_list (message_from_string envelope.content).root = []) →
      (handle_DATA message_from_string decode parseaddr backend session
        envelope).calls = []) ∧
    ((handle_DATA message_from_string decode parseaddr backend session
        envelope).calls ≠ [] →
      (∃ lp, session.auth_data = some lp) ∧
        envelope.rcpt_tos.length = 1 ∧
        content_list (message_from_string envelope.content).root ≠ []) := by
  constructor
  · intro h
    rcases h with h | h | h
    · simp [handle_DATA, h]
    · cases hs : session.auth_data with
      | none => simp [handle_DATA, hs]
      | some lp =>
          unfold handle_DATA
          rw [hs]
          rcases henv : envelope.rcpt_tos with _ | ⟨a, _ | ⟨b, t⟩⟩
          · rfl
          · exact absurd (by rw [henv]; rfl) h
          · rfl
    · cases hs : session.auth_data with
      | none => simp [handle_DATA, hs]
      | some lp =>
          unfold handle_DATA
          rw [hs]
          rcases henv : envelope.rcpt_tos with _ | ⟨a, _ | ⟨b, t⟩⟩
          · rfl
          · simp [h]
          · rfl
  · intro hne
    cases hs : session.auth_data with
    | none => exact absurd (by simp [handle_DATA, hs]) hne
    | some lp =>
        rcases henv : envelope.rcpt_tos with _ | ⟨a, _ | ⟨b, t⟩⟩
        · exact absurd (by simp [handle_DATA, hs, henv]) hne
        · cases hcl : content_list (message_from_string envelope.content).root with
          | nil => exact absurd (by simp [handle_DATA, hs, henv, hcl]) hne
          | cons c cs =>
              exact ⟨⟨lp, rfl⟩, rfl, List.cons_ne_nil c cs⟩
        · exact absurd (by simp [handle_DATA, hs, henv]) hne

/-- C10 witness: a run failing the recipient-count check performs no
backend call, and a successful concrete run that did call the backend
passed all three checks. -/
theorem C10_no_call_before_checks_witness :
    (handle_DATA demoParse id demoParseaddr (fun _ => .response 200 "")
        ⟨some ⟨"u", "p"⟩⟩ ⟨"s@x.com", [], "hi"⟩).calls = [] ∧
    ((∃ lp, (Session.mk (some ⟨"u", "p"⟩)).auth_data = some lp) ∧
      (Envelope.mk "s@x.com" ["r@x.com"] "hi").rcpt_tos.length = 1 ∧
      content_list (demoParse "hi").root ≠ []) :=
  ⟨(C10_no_call_before_checks demoParse id demoParseaddr
      (fun _ => .response 200 "") ⟨some ⟨"u", "p"⟩⟩
      ⟨"s@x.com", [], "hi"⟩).1 (Or.inr (Or.inl (by decide))),
   (C10_no_call_before_checks demoParse id demoParseaddr
      (fun _ => .response 200 "") ⟨some ⟨"u", "p"⟩⟩
      ⟨"s@x.com", ["r@x.com"], "hi"⟩).2 (by decide)⟩

end SmtpProxy
